import Mathlib

/-!
Shallow embedding of the termbox-tetris game core (src/tetris.c, src/include/tetris.h).

The board is the C global `uintattr_t board[BOARD_WIDTH][BOARD_HEIGHT]` (a 2D grid of
colors; the active piece is not part of the board).  Machine-int coordinates (`int8_t`)
stay far inside the int8 range along every code path modelled here, so blocks carry
plain `Int` coordinates.  Every raw C array access is modelled by an `Option`-returning
lookup/store: a `none` result marks an out-of-range access, which in the C program is
undefined behaviour.  Functions that can perform such an access therefore return
`Option` results, `none` meaning the run reached undefined behaviour.
-/

/-- Colors as used by termbox2; only their pairwise distinctness and the special role
of `TB_BLACK` (the empty cell marker) matter to the game logic. -/
abbrev TB_BLACK : Nat := 1
abbrev TB_RED : Nat := 2
abbrev TB_GREEN : Nat := 3
abbrev TB_YELLOW : Nat := 4
abbrev TB_BLUE : Nat := 5
abbrev TB_MAGENTA : Nat := 6
abbrev TB_CYAN : Nat := 7
abbrev TB_WHITE : Nat := 8

/-- Board width, from tetris.h: `#define BOARD_WIDTH 10`. -/
abbrev BOARD_WIDTH : Nat := 10

/-- Board height, from tetris.h: `#define BOARD_HEIGHT 20`. -/
abbrev BOARD_HEIGHT : Nat := 20

/-- From tetris.h: `#define MIN_WIDTH (BOARD_WIDTH + 2)*2`. -/
abbrev MIN_WIDTH : Int := (BOARD_WIDTH + 2) * 2

/-- From tetris.h: `#define MIN_HEIGHT (BOARD_HEIGHT + 2)`. -/
abbrev MIN_HEIGHT : Int := BOARD_HEIGHT + 2

/-- A block of a tetromino, tetris.h `block_t`: signed coordinates (a piece may be
partly above the board, negative y). -/
structure block_t where
  x : Int
  y : Int
deriving DecidableEq

/-- A game piece, tetris.h `piece_t`: 4 blocks in absolute board coordinates plus a
color tag (the color doubles as the piece-type discriminant). -/
structure piece_t where
  blocks : Fin 4 → block_t
  color : Nat

instance : DecidableEq piece_t := fun p q =>
  decidable_of_iff (p.blocks = q.blocks ∧ p.color = q.color) (by
    cases p; cases q; simp)

/-- Move directions, tetris.h `direc_t`. -/
inductive direc_t where
  | LEFT
  | RIGHT
  | DOWN
deriving DecidableEq

/-- Game states, tetris.h `game_state_t`. -/
inductive game_state_t where
  | PLAY
  | PAUSE
  | GAME_OVER
  | QUIT
deriving DecidableEq

export direc_t (LEFT RIGHT DOWN)
export game_state_t (PLAY PAUSE GAME_OVER QUIT)

/-- The board, `uintattr_t board[BOARD_WIDTH][BOARD_HEIGHT]`, indexed as
`(b.get x).get y`: a list of `BOARD_WIDTH` columns of `BOARD_HEIGHT` cells.  A board
produced by the program always has exactly these dimensions (`Board.WF`). -/
abbrev Board := List (List Nat)

/-- A board of the dimensions the C array always has. -/
def Board.WF (b : Board) : Prop :=
  b.length = BOARD_WIDTH ∧ ∀ col ∈ b, col.length = BOARD_HEIGHT

instance (b : Board) : Decidable b.WF := by unfold Board.WF; infer_instance

/-- Reading `board[x][y]`: `none` models an out-of-range access (undefined behaviour
in the C program). -/
def board_get? (b : Board) (x y : Int) : Option Nat :=
  if 0 ≤ x ∧ x < (BOARD_WIDTH : Int) ∧ 0 ≤ y ∧ y < (BOARD_HEIGHT : Int) then
    match b[x.toNat]? with
    | none => none
    | some col => col[y.toNat]?
  else none

/-- Writing `board[x][y] = c`: `none` models an out-of-range store. -/
def board_set? (b : Board) (x y : Int) (c : Nat) : Option Board :=
  if 0 ≤ x ∧ x < (BOARD_WIDTH : Int) ∧ 0 ≤ y ∧ y < (BOARD_HEIGHT : Int) then
    match b[x.toNat]? with
    | none => none
    | some col =>
      if y.toNat < col.length then some (b.set x.toNat (col.set y.toNat c))
      else none
  else none

/-- The all-black board produced by the initialization loop of `setup_new_game`. -/
def emptyBoard : Board :=
  List.replicate BOARD_WIDTH (List.replicate BOARD_HEIGHT TB_BLACK)

/-- Whole game state: the globals `board`, `active_piece` and `GAME_STATE`. -/
structure GState where
  board : Board
  active_piece : piece_t
  GAME_STATE : game_state_t

instance : DecidableEq GState := fun s t =>
  decidable_of_iff
    (s.board = t.board ∧ s.active_piece = t.active_piece ∧ s.GAME_STATE = t.GAME_STATE)
    (by cases s; cases t; simp)

/-- tetris.c `I_BLOCK_SINGLETON`. -/
def I_BLOCK_SINGLETON : piece_t :=
  { color := TB_CYAN, blocks := ![⟨4, 0⟩, ⟨3, 0⟩, ⟨5, 0⟩, ⟨6, 0⟩] }

/-- tetris.c `L_BLOCK_SINGLETON`. -/
def L_BLOCK_SINGLETON : piece_t :=
  { color := TB_YELLOW, blocks := ![⟨4, 0⟩, ⟨5, 0⟩, ⟨3, 0⟩, ⟨3, 1⟩] }

/-- tetris.c `J_BLOCK_SINGLETON`. -/
def J_BLOCK_SINGLETON : piece_t :=
  { color := TB_BLUE, blocks := ![⟨4, 0⟩, ⟨3, 0⟩, ⟨5, 0⟩, ⟨5, 1⟩] }

/-- tetris.c `O_BLOCK_SINGLETON`. -/
def O_BLOCK_SINGLETON : piece_t :=
  { color := TB_RED, blocks := ![⟨4, 0⟩, ⟨4, 1⟩, ⟨5, 0⟩, ⟨5, 1⟩] }

/-- tetris.c `S_BLOCK_SINGLETON`. -/
def S_BLOCK_SINGLETON : piece_t :=
  { color := TB_GREEN, blocks := ![⟨4, 0⟩, ⟨5, 0⟩, ⟨3, 1⟩, ⟨4, 1⟩] }

/-- tetris.c `Z_BLOCK_SINGLETON`. -/
def Z_BLOCK_SINGLETON : piece_t :=
  { color := TB_MAGENTA, blocks := ![⟨4, 0⟩, ⟨3, 0⟩, ⟨4, 1⟩, ⟨5, 1⟩] }

/-- tetris.c `T_BLOCK_SINGLETON`. -/
def T_BLOCK_SINGLETON : piece_t :=
  { color := TB_WHITE, blocks := ![⟨4, 0⟩, ⟨5, 0⟩, ⟨3, 0⟩, ⟨4, 1⟩] }

/-- tetris.c `BLOCK_TYPE_NAMES`: the 7 spawn templates. -/
def BLOCK_TYPE_NAMES : Fin 7 → piece_t :=
  ![I_BLOCK_SINGLETON, L_BLOCK_SINGLETON, J_BLOCK_SINGLETON, O_BLOCK_SINGLETON,
    S_BLOCK_SINGLETON, Z_BLOCK_SINGLETON, T_BLOCK_SINGLETON]

/-- tetris.c `create_new_active_piece`, with the `rand() % 7` draw made an explicit
parameter `ri`.  Reads `board[x][y]` at the four template blocks (without a bounds
check in the C source; all template coordinates are in range) and reports whether the
new piece sits on a settled cell, in which case the caller observes a game over.
Returns the new piece and the `game_over_happens` flag. -/
def create_new_active_piece (ri : Fin 7) (b : Board) : Option (piece_t × Bool) :=
  let p := BLOCK_TYPE_NAMES ri
  match board_get? b (p.blocks 0).x (p.blocks 0).y,
        board_get? b (p.blocks 1).x (p.blocks 1).y,
        board_get? b (p.blocks 2).x (p.blocks 2).y,
        board_get? b (p.blocks 3).x (p.blocks 3).y with
  | some c0, some c1, some c2, some c3 =>
      some (p, (c0 != TB_BLACK) || (c1 != TB_BLACK) || (c2 != TB_BLACK) || (c3 != TB_BLACK))
  | _, _, _, _ => none

/-- Row shift of one column by the line-clear loop: rows `1..line` each receive the
row above them, row `0` is left unchanged. -/
def shiftColumn (line : Int) (col : List Nat) : List Nat :=
  (List.range col.length).map fun y =>
    if 1 ≤ y ∧ Int.ofNat y ≤ line then col.getD (y - 1) TB_BLACK
    else col.getD y TB_BLACK

/-- One row-shift of the line-clear loop in `settle_active_piece`:
`for (row = line; row > 0; row--) board[col][row] = board[col][row-1];`. -/
def removeRow (line : Int) (b : Board) : Board :=
  b.map (shiftColumn line)

/-- Structural worker for `clearLines`; the first argument is the length of the slot
list (the adjustment map keeps the list length, so the fuel never runs out). -/
def clearLinesAux : Nat → List Int → Board → Board
  | 0, _, b => b
  | _ + 1, [], b => b
  | n + 1, l :: rest, b =>
    if l = -1 then clearLinesAux n rest b
    else
      clearLinesAux n (rest.map fun j => if j ≠ -1 ∧ j < l then j + 1 else j)
        (removeRow l b)

/-- The clearing loop of `settle_active_piece`: process `lines_to_clear` in index
order, skipping `-1` slots; after removing a line, bump every later still-pending
index that lies strictly above the removed line. -/
def clearLines (ls : List Int) (b : Board) : Board :=
  clearLinesAux ls.length ls b

/-- Row-fullness scan of `settle_active_piece`: after writing a block at row `y`,
the row is marked for clearing iff no column of row `y` is black.  `none` models the
out-of-range read `board[col][y]` for a row outside the board. -/
def rowFull (b : Board) (y : Int) : Option Bool :=
  if 0 ≤ y ∧ y < (BOARD_HEIGHT : Int) then
    some (b.all fun col => col.getD y.toNat TB_BLACK != TB_BLACK)
  else none

/-- The per-block loop of `settle_active_piece`: for each block in order, first test
`y < 0` (game over: stop, keeping the board as mutated so far), then write the block's
cell, then scan its row for fullness, appending the row index (or `-1`) to the
`lines_to_clear` slots.  Returns the mutated board, the mark list, and whether the
game-over branch was taken; `none` models an out-of-range access. -/
def settleLoop (color : Nat) : List block_t → Board → List Int →
    Option (Board × List Int × Bool)
  | [], b, marks => some (b, marks, false)
  | blk :: rest, b, marks =>
    if blk.y < 0 then some (b, marks, true)
    else
      match board_set? b blk.x blk.y color with
      | none => none
      | some b1 =>
        match rowFull b1 blk.y with
        | none => none
        | some full =>
          settleLoop color rest b1 (marks ++ [if full then blk.y else -1])

/-- The four blocks of a piece as a list, in index order. -/
def blocksList (p : piece_t) : List block_t :=
  [p.blocks 0, p.blocks 1, p.blocks 2, p.blocks 3]

/-- tetris.c `settle_active_piece` (state change only; the flash animation is pure
rendering).  Writes the piece into the board block by block (aborting into GAME_OVER
if a block is above the board, with the already-written blocks left on the board),
clears the collected full lines, and spawns a new active piece, which may itself
signal a game over. -/
def settle_active_piece (ri : Fin 7) (s : GState) : Option GState :=
  match settleLoop s.active_piece.color (blocksList s.active_piece) s.board [] with
  | none => none
  | some (b, _, true) => some { s with board := b, GAME_STATE := GAME_OVER }
  | some (b, marks, false) =>
    let b2 := clearLines marks b
    match create_new_active_piece ri b2 with
    | none => none
    | some (np, go) =>
      some { board := b2, active_piece := np,
             GAME_STATE := if go then GAME_OVER else s.GAME_STATE }

/-- Candidate position and guard test for one block in `move_active_piece`, mirroring
the C short-circuit order.  `none` is an out-of-range board read; `some none` means
the guard fired (move rejected, or settlement for DOWN); `some (some nb)` is the
checked new block position. -/
def moveBlockCheck (d : direc_t) (b : Board) (blk : block_t) : Option (Option block_t) :=
  match d with
  | LEFT =>
    let nx := blk.x - 1
    let ny := blk.y
    if nx < 0 then some none
    else if 0 ≤ ny then
      match board_get? b nx ny with
      | none => none
      | some c => if c ≠ TB_BLACK then some none else some (some ⟨nx, ny⟩)
    else some (some ⟨nx, ny⟩)
  | RIGHT =>
    let nx := blk.x + 1
    let ny := blk.y
    if (BOARD_WIDTH : Int) ≤ nx then some none
    else if 0 ≤ ny then
      match board_get? b nx ny with
      | none => none
      | some c => if c ≠ TB_BLACK then some none else some (some ⟨nx, ny⟩)
    else some (some ⟨nx, ny⟩)
  | DOWN =>
    let nx := blk.x
    let ny := blk.y + 1
    if (BOARD_HEIGHT : Int) ≤ ny then some none
    else if 0 ≤ ny then
      match board_get? b nx ny with
      | none => none
      | some c => if c ≠ TB_BLACK then some none else some (some ⟨nx, ny⟩)
    else some (some ⟨nx, ny⟩)

/-- The validation loop of `move_active_piece` over the four blocks in order, with the
C early returns: `some none` as soon as one block's guard fires, otherwise the four
new positions. -/
def moveChecks (d : direc_t) (b : Board) (p : piece_t) :
    Option (Option (Fin 4 → block_t)) :=
  match moveBlockCheck d b (p.blocks 0) with
  | none => none
  | some none => some none
  | some (some n0) =>
    match moveBlockCheck d b (p.blocks 1) with
    | none => none
    | some none => some none
    | some (some n1) =>
      match moveBlockCheck d b (p.blocks 2) with
      | none => none
      | some none => some none
      | some (some n2) =>
        match moveBlockCheck d b (p.blocks 3) with
        | none => none
        | some none => some none
        | some (some n3) => some (some ![n0, n1, n2, n3])

/-- tetris.c `move_active_piece`.  A fired guard is a silent no-op for LEFT/RIGHT
(returns `true`, piece unchanged) and triggers settlement for DOWN (returns `false`);
otherwise all four blocks move to their new positions and it returns `true`.  `ri` is
the random draw used if settlement spawns a new piece. -/
def move_active_piece (d : direc_t) (ri : Fin 7) (s : GState) : Option (GState × Bool) :=
  match moveChecks d s.board s.active_piece with
  | none => none
  | some none =>
    match d with
    | DOWN => (settle_active_piece ri s).map (fun s2 => (s2, false))
    | _ => some (s, true)
  | some (some nb) =>
    some ({ s with active_piece := { s.active_piece with blocks := nb } }, true)

/-- Candidate positions of the three non-center blocks computed by
`rotate_active_piece` before its validation loop: the bespoke two-state rule for the
I piece (selected by color `TB_CYAN`), and the clockwise rotation
`(rel_x, rel_y) -> (-rel_y, rel_x)` about block 0 for the other shapes.  (For the O
piece, color `TB_RED`, the C function returns before computing candidates.) -/
def rotCandidates (p : piece_t) : Fin 3 → block_t :=
  let center := p.blocks 0
  if p.color = TB_CYAN then
    if center.y = (p.blocks 1).y then
      ![⟨center.x, center.y - 1⟩, ⟨center.x, center.y + 1⟩, ⟨center.x, center.y + 2⟩]
    else
      ![⟨center.x - 1, center.y⟩, ⟨center.x + 1, center.y⟩, ⟨center.x + 2, center.y⟩]
  else
    fun i =>
      let rel_x := (p.blocks i.succ).x - center.x
      let rel_y := (p.blocks i.succ).y - center.y
      ⟨center.x - rel_y, center.y + rel_x⟩

/-- One step of the validation loop of `rotate_active_piece`, in the C evaluation
order: `(y >= 0 && board[x][y] != TB_BLACK) || y >= BOARD_HEIGHT || x < 0 ||
x >= BOARD_WIDTH`.  The board is read as soon as `y >= 0`, before the bounds tests,
so a `none` (out-of-range read) is possible here.  `some true` rejects the rotation. -/
def rotBlockCheck (b : Board) (blk : block_t) : Option Bool :=
  if 0 ≤ blk.y then
    match board_get? b blk.x blk.y with
    | none => none
    | some c =>
      some ((c != TB_BLACK) || decide ((BOARD_HEIGHT : Int) ≤ blk.y) ||
            decide (blk.x < 0) || decide ((BOARD_WIDTH : Int) ≤ blk.x))
  else
    some (decide ((BOARD_HEIGHT : Int) ≤ blk.y) || decide (blk.x < 0) ||
          decide ((BOARD_WIDTH : Int) ≤ blk.x))

/-- tetris.c `rotate_active_piece`: immediate no-op for the O piece; otherwise compute
the three candidate blocks, validate them in order (rejecting the whole rotation if a
check fires), and on success replace blocks 1..3, keeping the center. -/
def rotate_active_piece (s : GState) : Option GState :=
  let p := s.active_piece
  if p.color = TB_RED then some s
  else
    let nb := rotCandidates p
    match rotBlockCheck s.board (nb 0) with
    | none => none
    | some true => some s
    | some false =>
      match rotBlockCheck s.board (nb 1) with
      | none => none
      | some true => some s
      | some false =>
        match rotBlockCheck s.board (nb 2) with
        | none => none
        | some true => some s
        | some false =>
          some { s with active_piece :=
                 { p with blocks := ![p.blocks 0, nb 0, nb 1, nb 2] } }

/-- The clockwise rotation `(rel_x, rel_y) -> (-rel_y, rel_x)` of one block about a
center, as `rotate_active_piece` applies it to the non-center blocks of every
non-I, non-O piece. -/
def rotStep (center v : block_t) : block_t :=
  ⟨center.x - (v.y - center.y), center.y + (v.x - center.x)⟩

/-- The unobstructed rotation result: what `rotate_active_piece` installs when every
validation check passes (and the piece itself for the O piece). -/
def rotApply (p : piece_t) : piece_t :=
  if p.color = TB_RED then p
  else { p with blocks :=
         ![p.blocks 0, rotCandidates p 0, rotCandidates p 1, rotCandidates p 2] }

/-- tetris.c `hard_drop_active_piece`: `while (move_active_piece(DOWN)) continue;`,
with explicit fuel (the C loop terminates because the piece descends; exhausted fuel
just stops early). -/
def hard_drop_active_piece (fuel : Nat) (ri : Fin 7) (s : GState) : Option GState :=
  match fuel with
  | 0 => some s
  | f + 1 =>
    match move_active_piece DOWN ri s with
    | none => none
    | some (s2, true) => hard_drop_active_piece f ri s2
    | some (s2, false) => some s2

/-- tetris.c `setup_new_game` followed by `resume_game`: all-black board, fresh active
piece drawn as template `ri`; an overlapping spawn (impossible on the empty board)
would leave the game over, otherwise play begins. -/
def setup_new_game (ri : Fin 7) : Option GState :=
  match create_new_active_piece ri emptyBoard with
  | none => none
  | some (p, go) =>
    some { board := emptyBoard, active_piece := p,
           GAME_STATE := if go then GAME_OVER else PLAY }

/-- The window-dimension check at the top of `initialize` in tetris.c:
`if ((tb_width() < MIN_WIDTH) || (tb_height() < MIN_HEIGHT)) quit(EXIT_FAILURE,
"Window dimensions are too small!");` — performed before any game state is created. -/
def init_window_check (w h : Int) : Except String Unit :=
  if w < MIN_WIDTH ∨ h < MIN_HEIGHT then
    Except.error "Window dimensions are too small!"
  else Except.ok ()

/-- One player/gravity operation, for stating reachability of game states. -/
inductive OpStep where
  | mv (d : direc_t) (ri : Fin 7)
  | rot
  | hd (fuel : Nat) (ri : Fin 7)

/-- Run one operation on a state. -/
def runOp (op : OpStep) (s : GState) : Option GState :=
  match op with
  | .mv d ri => (move_active_piece d ri s).map (fun r => r.1)
  | .rot => rotate_active_piece s
  | .hd fuel ri => hard_drop_active_piece fuel ri s

/-- Run a list of operations in order. -/
def runSteps : List OpStep → GState → Option GState
  | [], s => some s
  | op :: rest, s => (runOp op s).bind (runSteps rest)

/-- States reachable from a fresh game by the modelled operations (spawn and settle
happen inside `setup_new_game` and `move_active_piece DOWN` respectively, as in the C
source). -/
inductive ReachableState : GState → Prop
  | setup (ri : Fin 7) (s : GState) : setup_new_game ri = some s → ReachableState s
  | move (d : direc_t) (ri : Fin 7) (s s2 : GState) (act : Bool) :
      ReachableState s → move_active_piece d ri s = some (s2, act) → ReachableState s2
  | rotate (s s2 : GState) :
      ReachableState s → rotate_active_piece s = some s2 → ReachableState s2
  | hardDrop (fuel : Nat) (ri : Fin 7) (s s2 : GState) :
      ReachableState s → hard_drop_active_piece fuel ri s = some s2 → ReachableState s2

/-- All four blocks inside the horizontal walls and above-or-inside the floor:
`x ∈ [0, BOARD_WIDTH)`, `y < BOARD_HEIGHT` (negative y, above the board, allowed). -/
def pieceInBounds (p : piece_t) : Prop :=
  ∀ i : Fin 4, 0 ≤ (p.blocks i).x ∧ (p.blocks i).x < (BOARD_WIDTH : Int) ∧
    (p.blocks i).y < (BOARD_HEIGHT : Int)

instance (p : piece_t) : Decidable (pieceInBounds p) := by
  unfold pieceInBounds; infer_instance

/-- Whether the board holds no settled piece at the cell under a block: true when the
block is outside the board (no grid cell there) or the in-range cell is black. -/
def cellFree (b : Board) (blk : block_t) : Bool :=
  match board_get? b blk.x blk.y with
  | none => true
  | some c => c == TB_BLACK

/-- No settled (non-black, in-range) board cell coincides with a block of the active
piece; blocks outside the board (in particular above it) occupy no grid cell. -/
def noOverlapB (s : GState) : Bool :=
  decide (∀ i : Fin 4, cellFree s.board (s.active_piece.blocks i) = true)

/-- Horizontal translation applied to every block by a successful move. -/
def dX : direc_t → Int
  | LEFT => -1
  | RIGHT => 1
  | DOWN => 0

/-- Vertical translation applied to every block by a successful move (y grows
downward). -/
def dY : direc_t → Int
  | LEFT => 0
  | RIGHT => 0
  | DOWN => 1

/-- The rotation-validation loop accepts every candidate block (no obstruction, all
candidates inside walls and floor). -/
def rotAccepted (b : Board) (p : piece_t) : Prop :=
  ∀ i : Fin 3, rotBlockCheck b (rotCandidates p i) = some false

instance (b : Board) (p : piece_t) : Decidable (rotAccepted b p) := by
  unfold rotAccepted; infer_instance

/-- The I piece in its canonical horizontal arrangement (block 0 the pivot, as spawned
and as restored after every second rotation). -/
def isHorizI (p : piece_t) : Prop :=
  p.color = TB_CYAN ∧
  p.blocks 1 = ⟨(p.blocks 0).x - 1, (p.blocks 0).y⟩ ∧
  p.blocks 2 = ⟨(p.blocks 0).x + 1, (p.blocks 0).y⟩ ∧
  p.blocks 3 = ⟨(p.blocks 0).x + 2, (p.blocks 0).y⟩

instance (p : piece_t) : Decidable (isHorizI p) := by
  unfold isHorizI; infer_instance

/-- The I piece in its canonical vertical arrangement (what one rotation of the
horizontal arrangement produces). -/
def isVertI (p : piece_t) : Prop :=
  p.color = TB_CYAN ∧
  p.blocks 1 = ⟨(p.blocks 0).x, (p.blocks 0).y - 1⟩ ∧
  p.blocks 2 = ⟨(p.blocks 0).x, (p.blocks 0).y + 1⟩ ∧
  p.blocks 3 = ⟨(p.blocks 0).x, (p.blocks 0).y + 2⟩

instance (p : piece_t) : Decidable (isVertI p) := by
  unfold isVertI; infer_instance

/-- The state right after `setup_new_game` with random draw `ri`: empty board, the
chosen template as active piece, playing. -/
def tetrisStart (ri : Fin 7) : GState :=
  { board := emptyBoard, active_piece := BLOCK_TYPE_NAMES ri, GAME_STATE := PLAY }

/-- Board with a single settled red cell at (4, 3). -/
def c1Board : Board :=
  (List.range BOARD_WIDTH).map fun x =>
    (List.range BOARD_HEIGHT).map fun y =>
      if x = 4 ∧ y = 3 then TB_RED else TB_BLACK

/-- A vertical I piece with its second block above the board (as produced by rotating
the I piece on its spawn row). -/
def c1Piece : piece_t := { color := TB_CYAN, blocks := ![⟨4, 0⟩, ⟨4, -1⟩, ⟨4, 1⟩, ⟨4, 2⟩] }

/-- Input refuting C1 as stated: a DOWN move of `c1Piece` over `c1Board` collides at
(4, 3), so the piece settles, but its block above the board aborts the settlement into
a game over after only one cell was written. -/
def c1State : GState := { board := c1Board, active_piece := c1Piece, GAME_STATE := PLAY }

/-- Board whose rows 5 and 6 are fully occupied except in columns 8 and 9, with one
settled green cell at (0, 0) and one blue cell at (3, 7). -/
def c2Board : Board :=
  (List.range BOARD_WIDTH).map fun x =>
    (List.range BOARD_HEIGHT).map fun y =>
      if (y = 5 ∨ y = 6) ∧ x < 8 then TB_RED
      else if x = 0 ∧ y = 0 then TB_GREEN
      else if x = 3 ∧ y = 7 then TB_BLUE
      else TB_BLACK

/-- An O piece occupying the remaining cells of rows 5 and 6 of `c2Board`, touching
each of the two rows with two of its blocks. -/
def c2Piece : piece_t := { color := TB_RED, blocks := ![⟨8, 5⟩, ⟨8, 6⟩, ⟨9, 5⟩, ⟨9, 6⟩] }

/-- Input for the line-clear claim: settling `c2Piece` makes exactly rows 5 and 6 fully
occupied and identifies both for clearing. -/
def c2State : GState := { board := c2Board, active_piece := c2Piece, GAME_STATE := PLAY }

/-- A rotated T piece whose third block is above the board while blocks 0 and 1 are on
the board (reachable by rotating the T piece on its spawn row). -/
def c3Piece : piece_t := { color := TB_WHITE, blocks := ![⟨4, 0⟩, ⟨4, 1⟩, ⟨4, -1⟩, ⟨3, 0⟩] }

/-- Input for the settle-above-board claim: settling `c3Piece` on the empty board. -/
def c3State : GState := { board := emptyBoard, active_piece := c3Piece, GAME_STATE := PLAY }

/-- Key sequence driving the T piece into the rotation that reads the board out of
range: rotate once on the spawn row, slide to the right wall, then rotate again. -/
def c4Steps : List OpStep :=
  [.rot, .mv RIGHT 0, .mv RIGHT 0, .mv RIGHT 0, .mv RIGHT 0, .mv RIGHT 0]

/-- The state c4Steps reaches from a fresh game on the T piece: the rotated T pressed
against the right wall, one block above the board. -/
def c4Final : GState :=
  { board := emptyBoard,
    active_piece := { color := TB_WHITE, blocks := ![⟨9, 0⟩, ⟨9, 1⟩, ⟨9, -1⟩, ⟨8, 0⟩] },
    GAME_STATE := PLAY }

/-- Key sequence stacking five vertical I pieces in column 4 (each drawn piece is the
I template): after the fifth settles, the next spawn lands on a settled cell and
signals game over. -/
def c7Steps : List OpStep :=
  [.rot, .hd 30 0, .rot, .hd 30 0, .rot, .hd 30 0, .rot, .hd 30 0, .rot, .hd 30 0]

/-- An O piece resting on the floor (bottom two rows of columns 4 and 5). -/
def w1Piece : piece_t := { color := TB_RED, blocks := ![⟨4, 18⟩, ⟨4, 19⟩, ⟨5, 18⟩, ⟨5, 19⟩] }

/-- Witness input for the DOWN-settlement claim: moving `w1Piece` down crosses the
floor, so it settles where it stands. -/
def w1State : GState := { board := emptyBoard, active_piece := w1Piece, GAME_STATE := PLAY }

/-- The I piece after one LEFT move from its spawn position. -/
def w2State : GState :=
  { board := emptyBoard,
    active_piece := { color := TB_CYAN, blocks := ![⟨3, 0⟩, ⟨2, 0⟩, ⟨4, 0⟩, ⟨5, 0⟩] },
    GAME_STATE := PLAY }

/-- The two mutexes of tetris.c: `board_mutex` guards the Grid, `active_piece_mutex`
guards the active piece. -/
inductive LockId where
  | board_mutex
  | active_piece_mutex
deriving DecidableEq

/-- A lock or unlock call on one of the two mutexes. -/
inductive LockEvent where
  | lock (l : LockId)
  | unlock (l : LockId)
deriving DecidableEq

/-- Mutex calls of `render` (tetris.c lines 234-235 and 261-262), in program order:
lock board, lock active piece, unlock active piece, unlock board. -/
def render_lock_trace : List LockEvent :=
  [.lock .board_mutex, .lock .active_piece_mutex,
   .unlock .active_piece_mutex, .unlock .board_mutex]

/-- Mutex calls of `move_active_piece` (tetris.c lines 338-339 with releases at
349-350, 359-360, 369-370, or 379 and 385): the same sequence on every path. -/
def move_lock_trace : List LockEvent :=
  [.lock .active_piece_mutex, .lock .board_mutex,
   .unlock .board_mutex, .unlock .active_piece_mutex]

/-- Mutex calls of `rotate_active_piece` on its board-checking paths (tetris.c lines
393, 437, and 443-444 or 448 and 454). -/
def rotate_lock_trace : List LockEvent :=
  [.lock .active_piece_mutex, .lock .board_mutex,
   .unlock .board_mutex, .unlock .active_piece_mutex]

/-- Mutex calls of `settle_active_piece` (tetris.c lines 471-472 with releases at
477-478 on the game-over path and 560-561 otherwise): both paths release the active
piece mutex first, the same order in which it was acquired. -/
def settle_lock_trace : List LockEvent :=
  [.lock .active_piece_mutex, .lock .board_mutex,
   .unlock .active_piece_mutex, .unlock .board_mutex]

/-- Mutex calls of `create_new_active_piece` (tetris.c lines 307, 316, 322-323). -/
def create_piece_lock_trace : List LockEvent :=
  [.lock .active_piece_mutex, .lock .board_mutex,
   .unlock .board_mutex, .unlock .active_piece_mutex]

/-- The acquisition order of a call site: its lock calls in program order. -/
def locksOf (t : List LockEvent) : List LockId :=
  t.filterMap fun e => match e with | .lock l => some l | .unlock _ => none

/-- The release order of a call site: its unlock calls in program order. -/
def unlocksOf (t : List LockEvent) : List LockId :=
  t.filterMap fun e => match e with | .lock _ => none | .unlock l => some l

/-! ## Basic board lemmas -/

theorem board_set?_elim {b b2 : Board} {x y : Int} {c : Nat}
    (h : board_set? b x y c = some b2) :
    ∃ col, (0 ≤ x ∧ x < (BOARD_WIDTH : Int) ∧ 0 ≤ y ∧ y < (BOARD_HEIGHT : Int)) ∧
      b[x.toNat]? = some col ∧ y.toNat < col.length ∧
      b2 = b.set x.toNat (col.set y.toNat c) := by
  unfold board_set? at h
  by_cases hr : 0 ≤ x ∧ x < (BOARD_WIDTH : Int) ∧ 0 ≤ y ∧ y < (BOARD_HEIGHT : Int)
  · rw [if_pos hr] at h
    cases h1 : b[x.toNat]? with
    | none => rw [h1] at h; cases h
    | some col =>
      rw [h1] at h
      dsimp only at h
      by_cases hy : y.toNat < col.length
      · rw [if_pos hy] at h
        cases h
        exact ⟨col, hr, rfl, hy, rfl⟩
      · rw [if_neg hy] at h; cases h
  · rw [if_neg hr] at h; cases h

theorem board_get?_isSome {b : Board} (hWF : b.WF) (x y : Int)
    (hx0 : 0 ≤ x) (hx1 : x < (BOARD_WIDTH : Int))
    (hy0 : 0 ≤ y) (hy1 : y < (BOARD_HEIGHT : Int)) :
    ∃ c, board_get? b x y = some c := by
  obtain ⟨hlen, hcols⟩ := hWF
  have hx : x.toNat < b.length := by omega
  have h1 : b[x.toNat]? = some b[x.toNat] := List.getElem?_eq_getElem hx
  have hy : y.toNat < b[x.toNat].length := by
    rw [hcols _ (b.getElem_mem hx)]; omega
  unfold board_get?
  rw [if_pos ⟨hx0, hx1, hy0, hy1⟩, h1]
  exact ⟨_, List.getElem?_eq_getElem hy⟩

theorem board_set?_isSome {b : Board} (hWF : b.WF) (x y : Int) (c : Nat)
    (hx0 : 0 ≤ x) (hx1 : x < (BOARD_WIDTH : Int))
    (hy0 : 0 ≤ y) (hy1 : y < (BOARD_HEIGHT : Int)) :
    ∃ b2, board_set? b x y c = some b2 := by
  obtain ⟨hlen, hcols⟩ := hWF
  have hx : x.toNat < b.length := by omega
  have h1 : b[x.toNat]? = some b[x.toNat] := List.getElem?_eq_getElem hx
  have hy : y.toNat < b[x.toNat].length := by
    rw [hcols _ (b.getElem_mem hx)]; omega
  unfold board_set?
  rw [if_pos ⟨hx0, hx1, hy0, hy1⟩, h1]
  dsimp only
  rw [if_pos hy]
  exact ⟨_, rfl⟩

theorem board_set?_WF {b b2 : Board} {x y : Int} {c : Nat} (hWF : b.WF)
    (h : board_set? b x y c = some b2) : b2.WF := by
  obtain ⟨hlen, hcols⟩ := hWF
  obtain ⟨col, _, h1, hy, rfl⟩ := board_set?_elim h
  refine ⟨by simpa using hlen, ?_⟩
  intro col2 hmem
  rcases List.mem_or_eq_of_mem_set hmem with h2 | h2
  · exact hcols _ h2
  · subst h2
    have hcol : col ∈ b := by
      obtain ⟨hlt, h3⟩ := List.getElem?_eq_some_iff.mp h1
      exact h3 ▸ b.getElem_mem hlt
    simpa using hcols _ hcol

theorem board_get?_set_self {b b2 : Board} {x y : Int} {c : Nat}
    (h : board_set? b x y c = some b2) : board_get? b2 x y = some c := by
  obtain ⟨col, hr, h1, hy, rfl⟩ := board_set?_elim h
  obtain ⟨hxlt, _⟩ := List.getElem?_eq_some_iff.mp h1
  unfold board_get?
  rw [if_pos hr, List.getElem?_set_self hxlt]
  dsimp only
  rw [List.getElem?_set_self hy]

theorem board_get?_set_other {b b2 : Board} {x y x2 y2 : Int} {c c2 : Nat}
    (h : board_set? b x y c = some b2)
    (hget : board_get? b x2 y2 = some c2) (hne : ¬(x2 = x ∧ y2 = y)) :
    board_get? b2 x2 y2 = some c2 := by
  obtain ⟨col, hr, h1, hy, rfl⟩ := board_set?_elim h
  obtain ⟨hr1, hr2, hr3, hr4⟩ := hr
  unfold board_get? at hget ⊢
  by_cases hr5 : 0 ≤ x2 ∧ x2 < (BOARD_WIDTH : Int) ∧ 0 ≤ y2 ∧ y2 < (BOARD_HEIGHT : Int)
  · rw [if_pos hr5] at hget ⊢
    by_cases hxeq : x.toNat = x2.toNat
    · have hxx : x2 = x := by omega
      have hyne : y.toNat ≠ y2.toNat := by
        intro hc
        exact hne ⟨hxx, by omega⟩
      obtain ⟨hxlt, _⟩ := List.getElem?_eq_some_iff.mp h1
      subst hxx
      rw [List.getElem?_set_self hxlt]
      dsimp only
      rw [h1] at hget
      dsimp only at hget
      rw [List.getElem?_set_ne hyne]
      exact hget
    · rw [List.getElem?_set_ne hxeq]
      exact hget
  · rw [if_neg hr5] at hget; cases hget

theorem rowFull_isSome {b : Board} {y : Int}
    (hy0 : 0 ≤ y) (hy1 : y < (BOARD_HEIGHT : Int)) :
    ∃ t, rowFull b y = some t := by
  unfold rowFull
  rw [if_pos ⟨hy0, hy1⟩]
  exact ⟨_, rfl⟩

theorem board_get?_none_of_neg {b : Board} {x y : Int} (hy : y < 0) :
    board_get? b x y = none := by
  unfold board_get?
  rw [if_neg (by omega)]

/-! ## Settlement lemmas -/

theorem settleLoop_ok (color : Nat) :
    ∀ (l : List block_t) (b : Board) (marks : List Int), b.WF →
    (∀ blk ∈ l, 0 ≤ blk.x ∧ blk.x < (BOARD_WIDTH : Int) ∧
      0 ≤ blk.y ∧ blk.y < (BOARD_HEIGHT : Int)) →
    ∃ wb marks2, settleLoop color l b marks = some (wb, marks2, false) ∧ wb.WF ∧
      (∀ blk ∈ l, board_get? wb blk.x blk.y = some color) ∧
      (∀ x y, board_get? b x y = some color → board_get? wb x y = some color) := by
  intro l
  induction l with
  | nil =>
    intro b marks hWF _
    exact ⟨b, marks, rfl, hWF, by simp, fun _ _ h => h⟩
  | cons blk rest ih =>
    intro b marks hWF hl
    have hblk := hl blk (List.mem_cons_self _ _)
    obtain ⟨b1, hset⟩ :=
      board_set?_isSome hWF blk.x blk.y color hblk.1 hblk.2.1 hblk.2.2.1 hblk.2.2.2
    obtain ⟨t, hfull⟩ := rowFull_isSome (b := b1) hblk.2.2.1 hblk.2.2.2
    obtain ⟨wb, marks2, hrun, hwf, hall, hmono⟩ :=
      ih b1 (marks ++ [if t then blk.y else -1]) (board_set?_WF hWF hset)
        (fun blk2 hm => hl blk2 (List.mem_cons_of_mem _ hm))
    refine ⟨wb, marks2, ?_, hwf, ?_, ?_⟩
    · unfold settleLoop
      rw [if_neg (by omega), hset]
      dsimp only
      rw [hfull]
      exact hrun
    · intro blk2 hm
      rcases List.mem_cons.mp hm with rfl | hm2
      · exact hmono _ _ (board_get?_set_self hset)
      · exact hall _ hm2
    · intro x y hcy
      apply hmono
      by_cases hxy : x = blk.x ∧ y = blk.y
      · rw [hxy.1, hxy.2]
        exact board_get?_set_self hset
      · exact board_get?_set_other hset hcy hxy

/-! ## Move lemmas -/

theorem moveBlockCheck_isSome (d : direc_t) {b : Board} (hWF : b.WF) {blk : block_t}
    (hx0 : 0 ≤ blk.x) (hx1 : blk.x < (BOARD_WIDTH : Int))
    (hy1 : blk.y < (BOARD_HEIGHT : Int)) :
    ∃ r, moveBlockCheck d b blk = some r := by
  cases d <;> unfold moveBlockCheck <;> dsimp only
  case LEFT =>
    by_cases h1 : blk.x - 1 < 0
    · rw [if_pos h1]; exact ⟨_, rfl⟩
    · rw [if_neg h1]
      by_cases h2 : 0 ≤ blk.y
      · rw [if_pos h2]
        obtain ⟨c, hc⟩ :=
          board_get?_isSome hWF (blk.x - 1) blk.y (by omega) (by omega) h2 hy1
        rw [hc]
        dsimp only
        split <;> exact ⟨_, rfl⟩
      · rw [if_neg h2]; exact ⟨_, rfl⟩
  case RIGHT =>
    by_cases h1 : (BOARD_WIDTH : Int) ≤ blk.x + 1
    · rw [if_pos h1]; exact ⟨_, rfl⟩
    · rw [if_neg h1]
      by_cases h2 : 0 ≤ blk.y
      · rw [if_pos h2]
        obtain ⟨c, hc⟩ :=
          board_get?_isSome hWF (blk.x + 1) blk.y (by omega) (by omega) h2 hy1
        rw [hc]
        dsimp only
        split <;> exact ⟨_, rfl⟩
      · rw [if_neg h2]; exact ⟨_, rfl⟩
  case DOWN =>
    by_cases h1 : (BOARD_HEIGHT : Int) ≤ blk.y + 1
    · rw [if_pos h1]; exact ⟨_, rfl⟩
    · rw [if_neg h1]
      by_cases h2 : 0 ≤ blk.y + 1
      · rw [if_pos h2]
        obtain ⟨c, hc⟩ :=
          board_get?_isSome hWF blk.x (blk.y + 1) hx0 hx1 h2 (by omega)
        rw [hc]
        dsimp only
        split <;> exact ⟨_, rfl⟩
      · rw [if_neg h2]; exact ⟨_, rfl⟩

theorem moveBlockCheck_elim {d : direc_t} {b : Board} {blk nb : block_t}
    (h : moveBlockCheck d b blk = some (some nb)) :
    nb.x = blk.x + dX d ∧ nb.y = blk.y + dY d ∧ cellFree b nb = true ∧
    (d = LEFT → 0 ≤ nb.x) ∧ (d = RIGHT → nb.x < (BOARD_WIDTH : Int)) ∧
    (d = DOWN → nb.y < (BOARD_HEIGHT : Int)) := by
  cases d <;> unfold moveBlockCheck at h <;> dsimp only at h
  case LEFT =>
    by_cases h1 : blk.x - 1 < 0
    · rw [if_pos h1] at h; simp at h
    · rw [if_neg h1] at h
      by_cases h2 : 0 ≤ blk.y
      · rw [if_pos h2] at h
        cases hg : board_get? b (blk.x - 1) blk.y with
        | none => rw [hg] at h; cases h
        | some c =>
          rw [hg] at h
          dsimp only at h
          by_cases h3 : c ≠ TB_BLACK
          · rw [if_pos h3] at h; simp at h
          · rw [if_neg h3] at h
            cases h
            refine ⟨by dsimp [dX]; ring, by dsimp [dY]; ring, ?_, fun _ => by dsimp only; omega,
              by simp, by simp⟩
            unfold cellFree
            dsimp only
            rw [hg]
            simp [not_not.mp h3]
      · rw [if_neg h2] at h
        cases h
        refine ⟨by dsimp [dX]; ring, by dsimp [dY]; ring, ?_, fun _ => by dsimp only; omega,
          by simp, by simp⟩
        unfold cellFree
        dsimp only
        rw [board_get?_none_of_neg (by omega)]
  case RIGHT =>
    by_cases h1 : (BOARD_WIDTH : Int) ≤ blk.x + 1
    · rw [if_pos h1] at h; simp at h
    · rw [if_neg h1] at h
      by_cases h2 : 0 ≤ blk.y
      · rw [if_pos h2] at h
        cases hg : board_get? b (blk.x + 1) blk.y with
        | none => rw [hg] at h; cases h
        | some c =>
          rw [hg] at h
          dsimp only at h
          by_cases h3 : c ≠ TB_BLACK
          · rw [if_pos h3] at h; simp at h
          · rw [if_neg h3] at h
            cases h
            refine ⟨by dsimp [dX], by dsimp [dY]; ring, ?_, by simp,
              fun _ => by dsimp only; omega, by simp⟩
            unfold cellFree
            dsimp only
            rw [hg]
            simp [not_not.mp h3]
      · rw [if_neg h2] at h
        cases h
        refine ⟨by dsimp [dX], by dsimp [dY]; ring, ?_, by simp,
          fun _ => by dsimp only; omega, by simp⟩
        unfold cellFree
        dsimp only
        rw [board_get?_none_of_neg (by omega)]
  case DOWN =>
    by_cases h1 : (BOARD_HEIGHT : Int) ≤ blk.y + 1
    · rw [if_pos h1] at h; simp at h
    · rw [if_neg h1] at h
      by_cases h2 : 0 ≤ blk.y + 1
      · rw [if_pos h2] at h
        cases hg : board_get? b blk.x (blk.y + 1) with
        | none => rw [hg] at h; cases h
        | some c =>
          rw [hg] at h
          dsimp only at h
          by_cases h3 : c ≠ TB_BLACK
          · rw [if_pos h3] at h; simp at h
          · rw [if_neg h3] at h
            cases h
            refine ⟨by dsimp [dX]; ring, by dsimp [dY], ?_, by simp, by simp,
              fun _ => by dsimp only; omega⟩
            unfold cellFree
            dsimp only
            rw [hg]
            simp [not_not.mp h3]
      · rw [if_neg h2] at h
        cases h
        refine ⟨by dsimp [dX]; ring, by dsimp [dY], ?_, by simp, by simp,
          fun _ => by dsimp only; omega⟩
        unfold cellFree
        dsimp only
        rw [board_get?_none_of_neg (by omega)]

theorem moveChecks_elim_apply {d : direc_t} {b : Board} {p : piece_t}
    {nb : Fin 4 → block_t} (h : moveChecks d b p = some (some nb)) :
    ∀ i : Fin 4, moveBlockCheck d b (p.blocks i) = some (some (nb i)) := by
  unfold moveChecks at h
  cases h0 : moveBlockCheck d b (p.blocks 0) with
  | none => rw [h0] at h; cases h
  | some o0 =>
    rw [h0] at h
    cases o0 with
    | none => simp at h
    | some n0 =>
      dsimp only at h
      cases h1 : moveBlockCheck d b (p.blocks 1) with
      | none => rw [h1] at h; cases h
      | some o1 =>
        rw [h1] at h
        cases o1 with
        | none => simp at h
        | some n1 =>
          dsimp only at h
          cases h2 : moveBlockCheck d b (p.blocks 2) with
          | none => rw [h2] at h; cases h
          | some o2 =>
            rw [h2] at h
            cases o2 with
            | none => simp at h
            | some n2 =>
              dsimp only at h
              cases h3 : moveBlockCheck d b (p.blocks 3) with
              | none => rw [h3] at h; cases h
              | some o3 =>
                rw [h3] at h
                cases o3 with
                | none => simp at h
                | some n3 =>
                  dsimp only at h
                  have hnb : nb = ![n0, n1, n2, n3] := by
                    have := Option.some_inj.mp h
                    exact (Option.some_inj.mp this).symm
                  subst hnb
                  intro i
                  fin_cases i <;>
                    simp only [Matrix.cons_val_zero, Matrix.cons_val_one,
                      Matrix.head_cons, Matrix.cons_val_two, Matrix.tail_cons,
                      Matrix.cons_val_three] <;>
                    assumption

theorem moveChecks_isSome {d : direc_t} {b : Board} {p : piece_t}
    (hWF : b.WF) (hin : pieceInBounds p) :
    ∃ r, moveChecks d b p = some r := by
  unfold moveChecks
  obtain ⟨r0, h0⟩ := moveBlockCheck_isSome d hWF (hin 0).1 (hin 0).2.1 (hin 0).2.2
  rw [h0]
  cases r0 with
  | none => exact ⟨_, rfl⟩
  | some n0 =>
    dsimp only
    obtain ⟨r1, h1⟩ := moveBlockCheck_isSome d hWF (hin 1).1 (hin 1).2.1 (hin 1).2.2
    rw [h1]
    cases r1 with
    | none => exact ⟨_, rfl⟩
    | some n1 =>
      dsimp only
      obtain ⟨r2, h2⟩ := moveBlockCheck_isSome d hWF (hin 2).1 (hin 2).2.1 (hin 2).2.2
      rw [h2]
      cases r2 with
      | none => exact ⟨_, rfl⟩
      | some n2 =>
        dsimp only
        obtain ⟨r3, h3⟩ := moveBlockCheck_isSome d hWF (hin 3).1 (hin 3).2.1 (hin 3).2.2
        rw [h3]
        cases r3 with
        | none => exact ⟨_, rfl⟩
        | some n3 => exact ⟨_, rfl⟩

/-! ## Spawn lemmas -/

theorem BLOCK_TYPE_NAMES_inBounds : ∀ ri : Fin 7, pieceInBounds (BLOCK_TYPE_NAMES ri) := by
  decide

theorem create_isSome (ri : Fin 7) {b : Board} (hWF : b.WF) :
    ∃ go, create_new_active_piece ri b = some (BLOCK_TYPE_NAMES ri, go) := by
  have hb : ∀ (rj : Fin 7) (i : Fin 4), 0 ≤ ((BLOCK_TYPE_NAMES rj).blocks i).x ∧
      ((BLOCK_TYPE_NAMES rj).blocks i).x < (BOARD_WIDTH : Int) ∧
      0 ≤ ((BLOCK_TYPE_NAMES rj).blocks i).y ∧
      ((BLOCK_TYPE_NAMES rj).blocks i).y < (BOARD_HEIGHT : Int) := by decide
  obtain ⟨c0, hc0⟩ := board_get?_isSome hWF _ _ (hb ri 0).1 (hb ri 0).2.1
    (hb ri 0).2.2.1 (hb ri 0).2.2.2
  obtain ⟨c1, hc1⟩ := board_get?_isSome hWF _ _ (hb ri 1).1 (hb ri 1).2.1
    (hb ri 1).2.2.1 (hb ri 1).2.2.2
  obtain ⟨c2, hc2⟩ := board_get?_isSome hWF _ _ (hb ri 2).1 (hb ri 2).2.1
    (hb ri 2).2.2.1 (hb ri 2).2.2.2
  obtain ⟨c3, hc3⟩ := board_get?_isSome hWF _ _ (hb ri 3).1 (hb ri 3).2.1
    (hb ri 3).2.2.1 (hb ri 3).2.2.2
  unfold create_new_active_piece
  dsimp only
  rw [hc0, hc1, hc2, hc3]
  exact ⟨_, rfl⟩

theorem create_go_false_free {ri : Fin 7} {b : Board} {np : piece_t}
    (h : create_new_active_piece ri b = some (np, false)) :
    np = BLOCK_TYPE_NAMES ri ∧ ∀ i : Fin 4, cellFree b (np.blocks i) = true := by
  unfold create_new_active_piece at h
  dsimp only at h
  cases h0 : board_get? b ((BLOCK_TYPE_NAMES ri).blocks 0).x ((BLOCK_TYPE_NAMES ri).blocks 0).y with
  | none => rw [h0] at h; cases h
  | some c0 =>
  cases h1 : board_get? b ((BLOCK_TYPE_NAMES ri).blocks 1).x ((BLOCK_TYPE_NAMES ri).blocks 1).y with
  | none => rw [h0, h1] at h; cases h
  | some c1 =>
  cases h2 : board_get? b ((BLOCK_TYPE_NAMES ri).blocks 2).x ((BLOCK_TYPE_NAMES ri).blocks 2).y with
  | none => rw [h0, h1, h2] at h; cases h
  | some c2 =>
  cases h3 : board_get? b ((BLOCK_TYPE_NAMES ri).blocks 3).x ((BLOCK_TYPE_NAMES ri).blocks 3).y with
  | none => rw [h0, h1, h2, h3] at h; cases h
  | some c3 =>
    rw [h0, h1, h2, h3] at h
    dsimp only at h
    have hp : np = BLOCK_TYPE_NAMES ri ∧
        ((c0 != TB_BLACK) || (c1 != TB_BLACK) || (c2 != TB_BLACK) || (c3 != TB_BLACK)) = false := by
      have := Option.some_inj.mp h
      exact ⟨congrArg Prod.fst this |>.symm, congrArg Prod.snd this⟩
    obtain ⟨hnp, hor⟩ := hp
    simp only [Bool.or_eq_false_iff, bne_eq_false_iff_eq] at hor
    subst hnp
    refine ⟨rfl, ?_⟩
    have g0 : cellFree b ((BLOCK_TYPE_NAMES ri).blocks 0) = true := by
      unfold cellFree; rw [h0]; simp [hor.1.1.1]
    have g1 : cellFree b ((BLOCK_TYPE_NAMES ri).blocks 1) = true := by
      unfold cellFree; rw [h1]; simp [hor.1.1.2]
    have g2 : cellFree b ((BLOCK_TYPE_NAMES ri).blocks 2) = true := by
      unfold cellFree; rw [h2]; simp [hor.1.2]
    have g3 : cellFree b ((BLOCK_TYPE_NAMES ri).blocks 3) = true := by
      unfold cellFree; rw [h3]; simp [hor.2]
    intro i
    fin_cases i
    · exact g0
    · exact g1
    · exact g2
    · exact g3

/-! ## Rotation lemmas -/

theorem rotBlockCheck_false_free {b : Board} {blk : block_t}
    (h : rotBlockCheck b blk = some false) : cellFree b blk = true := by
  unfold rotBlockCheck at h
  by_cases h1 : 0 ≤ blk.y
  · rw [if_pos h1] at h
    cases hg : board_get? b blk.x blk.y with
    | none => rw [hg] at h; cases h
    | some c =>
      rw [hg] at h
      dsimp only at h
      have hc := Option.some_inj.mp h
      simp only [Bool.or_eq_false_iff, bne_eq_false_iff_eq] at hc
      unfold cellFree
      rw [hg]
      simp [hc.1.1.1]
  · rw [if_neg h1] at h
    unfold cellFree
    rw [board_get?_none_of_neg (by omega)]

theorem rotate_apply_of_accepted {s : GState} (hcol : s.active_piece.color ≠ TB_RED)
    (hacc : rotAccepted s.board s.active_piece) :
    rotate_active_piece s = some { s with active_piece := rotApply s.active_piece } := by
  unfold rotate_active_piece rotApply
  dsimp only
  rw [if_neg hcol, if_neg hcol, hacc 0, hacc 1, hacc 2]

theorem rotate_reject_or_apply {s s2 : GState} (h : rotate_active_piece s = some s2) :
    (s2 = s) ∨
    (s2.board = s.board ∧ s2.GAME_STATE = s.GAME_STATE ∧
      s2.active_piece.color = s.active_piece.color ∧
      s2.active_piece.blocks 0 = s.active_piece.blocks 0 ∧
      (∀ i : Fin 3, s2.active_piece.blocks i.succ = rotCandidates s.active_piece i ∧
        rotBlockCheck s.board (rotCandidates s.active_piece i) = some false)) := by
  unfold rotate_active_piece at h
  dsimp only at h
  by_cases hcol : s.active_piece.color = TB_RED
  · rw [if_pos hcol] at h
    exact Or.inl (Option.some_inj.mp h).symm
  · rw [if_neg hcol] at h
    cases h0 : rotBlockCheck s.board (rotCandidates s.active_piece 0) with
    | none => rw [h0] at h; cases h
    | some t0 =>
      rw [h0] at h
      cases t0 with
      | true => exact Or.inl (Option.some_inj.mp h).symm
      | false =>
      dsimp only at h
      cases h1 : rotBlockCheck s.board (rotCandidates s.active_piece 1) with
      | none => rw [h1] at h; cases h
      | some t1 =>
        rw [h1] at h
        cases t1 with
        | true => exact Or.inl (Option.some_inj.mp h).symm
        | false =>
        dsimp only at h
        cases h2 : rotBlockCheck s.board (rotCandidates s.active_piece 2) with
        | none => rw [h2] at h; cases h
        | some t2 =>
          rw [h2] at h
          cases t2 with
          | true => exact Or.inl (Option.some_inj.mp h).symm
          | false =>
          dsimp only at h
          cases h
          refine Or.inr ⟨rfl, rfl, rfl, rfl, ?_⟩
          intro i
          fin_cases i
          · exact ⟨rfl, h0⟩
          · exact ⟨rfl, h1⟩
          · exact ⟨rfl, h2⟩

/-! ## Setup lemmas -/

theorem setup_new_game_eq : ∀ ri : Fin 7, setup_new_game ri = some (tetrisStart ri) := by
  decide

theorem tetrisStart_noOverlap : ∀ ri : Fin 7, noOverlapB (tetrisStart ri) = true := by
  decide

theorem emptyBoard_WF : emptyBoard.WF := by decide

/-! ## Elimination lemmas for settle and move -/

theorem settle_elim {ri : Fin 7} {s s2 : GState}
    (h : settle_active_piece ri s = some s2) :
    (s2.GAME_STATE = GAME_OVER ∧ s2.active_piece = s.active_piece) ∨
    (∃ go, create_new_active_piece ri s2.board = some (s2.active_piece, go) ∧
      s2.GAME_STATE = if go then GAME_OVER else s.GAME_STATE) := by
  unfold settle_active_piece at h
  cases hl : settleLoop s.active_piece.color (blocksList s.active_piece) s.board [] with
  | none => rw [hl] at h; cases h
  | some trip =>
    rw [hl] at h
    obtain ⟨b, marks, flag⟩ := trip
    cases flag with
    | true =>
      dsimp only at h
      cases h
      exact Or.inl ⟨rfl, rfl⟩
    | false =>
      dsimp only at h
      cases hc : create_new_active_piece ri (clearLines marks b) with
      | none => rw [hc] at h; cases h
      | some pr =>
        rw [hc] at h
        obtain ⟨np, go⟩ := pr
        dsimp only at h
        cases h
        exact Or.inr ⟨go, hc, rfl⟩

theorem move_elim {d : direc_t} {ri : Fin 7} {s s2 : GState} {act : Bool}
    (h : move_active_piece d ri s = some (s2, act)) :
    (∃ nb, moveChecks d s.board s.active_piece = some (some nb) ∧ act = true ∧
      s2.board = s.board ∧ s2.GAME_STATE = s.GAME_STATE ∧
      s2.active_piece = { s.active_piece with blocks := nb }) ∨
    (moveChecks d s.board s.active_piece = some none ∧ d ≠ DOWN ∧ act = true ∧ s2 = s) ∨
    (moveChecks d s.board s.active_piece = some none ∧ d = DOWN ∧ act = false ∧
      settle_active_piece ri s = some s2) := by
  unfold move_active_piece at h
  cases hmc : moveChecks d s.board s.active_piece with
  | none => rw [hmc] at h; cases h
  | some o =>
    rw [hmc] at h
    cases o with
    | none =>
      dsimp only at h
      cases d with
      | LEFT =>
        cases h
        exact Or.inr (Or.inl ⟨rfl, by simp, rfl, rfl⟩)
      | RIGHT =>
        cases h
        exact Or.inr (Or.inl ⟨rfl, by simp, rfl, rfl⟩)
      | DOWN =>
        obtain ⟨s3, hset, heq⟩ := Option.map_eq_some'.mp h
        obtain ⟨rfl, rfl⟩ := Prod.mk.injEq .. |>.mp heq |>.imp id id
        exact Or.inr (Or.inr ⟨rfl, rfl, rfl, hset⟩)
    | some nb =>
      dsimp only at h
      cases h
      exact Or.inl ⟨nb, rfl, rfl, rfl, rfl, rfl⟩

/-! ## Overlap-invariant preservation -/

theorem move_preserves_inv {d : direc_t} {ri : Fin 7} {s s2 : GState} {act : Bool}
    (h : move_active_piece d ri s = some (s2, act))
    (hs : s.GAME_STATE ≠ GAME_OVER → noOverlapB s = true) :
    s2.GAME_STATE ≠ GAME_OVER → noOverlapB s2 = true := by
  intro hmode
  rcases move_elim h with ⟨nb, hmc, _, hb, _, hp⟩ | ⟨_, _, _, rfl⟩ |
    ⟨_, _, _, hsettle⟩
  · simp only [noOverlapB, decide_eq_true_eq]
    intro i
    rw [hb, hp]
    exact (moveBlockCheck_elim (moveChecks_elim_apply hmc i)).2.2.1
  · exact hs hmode
  · rcases settle_elim hsettle with ⟨hgo, _⟩ | ⟨go, hc, hmode2⟩
    · exact absurd hgo hmode
    · cases go with
      | true => exact absurd hmode2 (by simpa using hmode)
      | false =>
        obtain ⟨_, hfree⟩ := create_go_false_free hc
        simp only [noOverlapB, decide_eq_true_eq]
        exact hfree

theorem rotate_preserves_inv {s s2 : GState}
    (h : rotate_active_piece s = some s2)
    (hs : s.GAME_STATE ≠ GAME_OVER → noOverlapB s = true) :
    s2.GAME_STATE ≠ GAME_OVER → noOverlapB s2 = true := by
  intro hmode
  rcases rotate_reject_or_apply h with rfl | ⟨hb, hm, _, hb0, hrest⟩
  · exact hs hmode
  · have hno := hs (by rw [← hm]; exact hmode)
    simp only [noOverlapB, decide_eq_true_eq] at hno ⊢
    intro i
    refine Fin.cases ?_ ?_ i
    · rw [hb, hb0]; exact hno 0
    · intro j
      rw [hb, (hrest j).1]
      exact rotBlockCheck_false_free (hrest j).2

theorem hard_drop_preserves_inv :
    ∀ (fuel : Nat) {ri : Fin 7} {s s2 : GState},
    hard_drop_active_piece fuel ri s = some s2 →
    (s.GAME_STATE ≠ GAME_OVER → noOverlapB s = true) →
    s2.GAME_STATE ≠ GAME_OVER → noOverlapB s2 = true := by
  intro fuel
  induction fuel with
  | zero =>
    intro ri s s2 h hs
    cases h
    exact hs
  | succ f ih =>
    intro ri s s2 h hs
    unfold hard_drop_active_piece at h
    cases hm : move_active_piece DOWN ri s with
    | none => rw [hm] at h; cases h
    | some pr =>
      rw [hm] at h
      obtain ⟨s3, act⟩ := pr
      cases act with
      | true => exact ih h (move_preserves_inv hm hs)
      | false =>
        dsimp only at h
        cases h
        exact move_preserves_inv hm hs

theorem runSteps_reachable :
    ∀ (l : List OpStep) (s s2 : GState),
    ReachableState s → runSteps l s = some s2 → ReachableState s2 := by
  intro l
  induction l with
  | nil =>
    intro s s2 hs h
    cases h
    exact hs
  | cons op rest ih =>
    intro s s2 hs h
    unfold runSteps at h
    cases ho : runOp op s with
    | none => rw [ho] at h; cases h
    | some t =>
      rw [ho] at h
      refine ih t s2 ?_ h
      cases op with
      | mv d ri =>
        obtain ⟨pr, hmv, hfst⟩ := Option.map_eq_some'.mp ho
        exact hfst ▸ ReachableState.move d ri s pr.1 pr.2 hs (by rw [← hmv])
      | rot => exact ReachableState.rotate s t hs ho
      | hd fuel ri => exact ReachableState.hardDrop fuel ri s t hs ho

/-! ## Claim theorems -/

theorem create_piece_eq {ri : Fin 7} {b : Board} {np : piece_t} {go : Bool}
    (h : create_new_active_piece ri b = some (np, go)) : np = BLOCK_TYPE_NAMES ri := by
  unfold create_new_active_piece at h
  dsimp only at h
  cases h0 : board_get? b ((BLOCK_TYPE_NAMES ri).blocks 0).x ((BLOCK_TYPE_NAMES ri).blocks 0).y with
  | none => rw [h0] at h; cases h
  | some c0 =>
  cases h1 : board_get? b ((BLOCK_TYPE_NAMES ri).blocks 1).x ((BLOCK_TYPE_NAMES ri).blocks 1).y with
  | none => rw [h0, h1] at h; cases h
  | some c1 =>
  cases h2 : board_get? b ((BLOCK_TYPE_NAMES ri).blocks 2).x ((BLOCK_TYPE_NAMES ri).blocks 2).y with
  | none => rw [h0, h1, h2] at h; cases h
  | some c2 =>
  cases h3 : board_get? b ((BLOCK_TYPE_NAMES ri).blocks 3).x ((BLOCK_TYPE_NAMES ri).blocks 3).y with
  | none => rw [h0, h1, h2, h3] at h; cases h
  | some c3 =>
    rw [h0, h1, h2, h3] at h
    dsimp only at h
    exact (congrArg Prod.fst (Option.some_inj.mp h)).symm

/-- C5 (confirmed): for every active piece whose 4 cells lie in
[0, BOARD_WIDTH) x (-inf, BOARD_HEIGHT) and every direction, whenever
`move_active_piece` returns — the move applied, was rejected as a no-op, or
triggered settlement (which replaces the piece by a freshly spawned template) —
all 4 cells of the resulting active piece still lie in
[0, BOARD_WIDTH) x (-inf, BOARD_HEIGHT). -/
theorem C5_move_keeps_bounds (d : direc_t) (ri : Fin 7) (s s2 : GState) (act : Bool)
    (hin : pieceInBounds s.active_piece)
    (h : move_active_piece d ri s = some (s2, act)) :
    pieceInBounds s2.active_piece := by
  rcases move_elim h with ⟨nb, hmc, _, _, _, hp⟩ | ⟨_, _, _, rfl⟩ | ⟨_, _, _, hsettle⟩
  · intro i
    have hel := moveBlockCheck_elim (moveChecks_elim_apply hmc i)
    obtain ⟨hx, hy, _, hL, hR, hD⟩ := hel
    have hbi := hin i
    have hp2 : s2.active_piece.blocks i = nb i := by rw [hp]
    rw [hp2]
    cases d with
    | LEFT =>
      refine ⟨hL rfl, ?_, ?_⟩
      · dsimp only [dX] at hx; omega
      · dsimp only [dY] at hy; omega
    | RIGHT =>
      refine ⟨?_, hR rfl, ?_⟩
      · dsimp only [dX] at hx; omega
      · dsimp only [dY] at hy; omega
    | DOWN =>
      refine ⟨?_, ?_, hD rfl⟩
      · dsimp only [dX] at hx; omega
      · dsimp only [dX] at hx; omega
  · exact hin
  · rcases settle_elim hsettle with ⟨_, hp⟩ | ⟨go, hc, _⟩
    · rw [hp]; exact hin
    · rw [create_piece_eq hc]
      exact BLOCK_TYPE_NAMES_inBounds ri

/-- Witness for C5: the I piece on the spawn row of an empty board, moved LEFT,
still has all 4 cells inside the walls and above the floor. -/
theorem C5_move_keeps_bounds_witness : pieceInBounds w2State.active_piece :=
  C5_move_keeps_bounds LEFT 0 (tetrisStart 0) w2State true (by decide) (by rfl)

/-- C10 (confirmed): whenever a move applies (returns "still active" and changes the
piece), every one of the 4 blocks is translated by the same unit vector — LEFT by
(-1,0), RIGHT by (+1,0), DOWN by (0,+1) — the color is unchanged, and hence all
pairwise relative offsets between blocks are preserved. -/
theorem C10_move_translates (d : direc_t) (ri : Fin 7) (s s2 : GState)
    (h : move_active_piece d ri s = some (s2, true))
    (hch : s2.active_piece ≠ s.active_piece) :
    s2.active_piece.color = s.active_piece.color ∧
    (∀ i : Fin 4, (s2.active_piece.blocks i).x = (s.active_piece.blocks i).x + dX d ∧
      (s2.active_piece.blocks i).y = (s.active_piece.blocks i).y + dY d) ∧
    (∀ i j : Fin 4,
      (s2.active_piece.blocks i).x - (s2.active_piece.blocks j).x =
        (s.active_piece.blocks i).x - (s.active_piece.blocks j).x ∧
      (s2.active_piece.blocks i).y - (s2.active_piece.blocks j).y =
        (s.active_piece.blocks i).y - (s.active_piece.blocks j).y) := by
  rcases move_elim h with ⟨nb, hmc, _, _, _, hp⟩ | ⟨_, _, _, heq⟩ | ⟨_, _, hact, _⟩
  · have htr : ∀ i : Fin 4,
        (s2.active_piece.blocks i).x = (s.active_piece.blocks i).x + dX d ∧
        (s2.active_piece.blocks i).y = (s.active_piece.blocks i).y + dY d := by
      intro i
      rw [hp]
      have hel := moveBlockCheck_elim (moveChecks_elim_apply hmc i)
      exact ⟨hel.1, hel.2.1⟩
    refine ⟨by rw [hp], htr, ?_⟩
    intro i j
    obtain ⟨hxi, hyi⟩ := htr i
    obtain ⟨hxj, hyj⟩ := htr j
    omega
  · exact absurd (congrArg GState.active_piece heq) hch
  · cases hact

/-- Witness for C10: moving the freshly spawned I piece LEFT on the empty board
translates all 4 blocks by (-1, 0) and keeps color and shape. -/
theorem C10_move_translates_witness :
    w2State.active_piece.color = (tetrisStart 0).active_piece.color ∧
    (∀ i : Fin 4,
      (w2State.active_piece.blocks i).x = ((tetrisStart 0).active_piece.blocks i).x + dX LEFT ∧
      (w2State.active_piece.blocks i).y = ((tetrisStart 0).active_piece.blocks i).y + dY LEFT) ∧
    (∀ i j : Fin 4,
      (w2State.active_piece.blocks i).x - (w2State.active_piece.blocks j).x =
        ((tetrisStart 0).active_piece.blocks i).x - ((tetrisStart 0).active_piece.blocks j).x ∧
      (w2State.active_piece.blocks i).y - (w2State.active_piece.blocks j).y =
        ((tetrisStart 0).active_piece.blocks i).y - ((tetrisStart 0).active_piece.blocks j).y) :=
  C10_move_translates LEFT 0 (tetrisStart 0) w2State (by rfl) (by decide)

/-- C2 (code_bug): with exactly rows 5 and 6 fully occupied (after the settling O
piece completes them) and a settled green cell at (0, 0), the clear removes both
identified rows — rows 0..4 do shift down by 2 (cell (0, 2) is the old (0, 0); cell
(1, 2) is the old black (1, 0)) and rows below stay unchanged (the blue cell at
(3, 7)) — but the topmost two rows are NOT empty: the shift loop never clears row 0,
so the old row 0 survives at row 0 and is duplicated into row 1 (both hold the green
cell in column 0), where the claim requires both rows to be empty. -/
theorem C2_line_clear_leaves_top_rows :
    (settle_active_piece 0 c2State).map (fun s2 =>
      (board_get? s2.board 0 0, board_get? s2.board 0 1, board_get? s2.board 0 2,
       board_get? s2.board 1 2, board_get? s2.board 0 6, board_get? s2.board 3 7)) =
      some (some TB_GREEN, some TB_GREEN, some TB_GREEN, some TB_BLACK,
        some TB_BLACK, some TB_BLUE) ∧
    TB_GREEN ≠ TB_BLACK := ⟨by rfl, by decide⟩

/-- C3 (code_bug): settling a piece with a block above the board (block 2 of
`c3Piece` has y = -1) does transition the state to GAME_OVER, but it does not leave
the Grid unchanged: blocks 0 and 1, which precede the first above-board block in
index order, have already been written into the Grid (cells (4, 0) and (4, 1) turn
white on the previously empty board). -/
theorem C3_settle_above_board_writes_prefix :
    board_get? c3State.board 4 0 = some TB_BLACK ∧
    (settle_active_piece 0 c3State).map (fun s2 =>
      (s2.GAME_STATE, board_get? s2.board 4 0, board_get? s2.board 4 1)) =
      some (GAME_OVER, some TB_WHITE, some TB_WHITE) ∧
    TB_WHITE ≠ TB_BLACK ∧ (c3State.active_piece.blocks 2).y < 0 :=
  ⟨by rfl, by rfl, by decide, by decide⟩

/-- C4 (code_bug): a state reachable in play (spawn the T piece, rotate it, slide it
to the right wall, rotate again) makes the rotation-validation loop read the board
at x = BOARD_WIDTH before its own bounds test: the model's total lookup returns
`none`, i.e. the C code indexes `board` out of range during validation. -/
theorem C4_rotate_validation_reads_out_of_range :
    ∃ s, ReachableState s ∧ rotate_active_piece s = none := by
  refine ⟨c4Final, ?_, rfl⟩
  exact runSteps_reachable c4Steps (tetrisStart 6) c4Final
    (ReachableState.setup 6 _ (setup_new_game_eq 6)) rfl

/-- C8 (code_bug): move, rotate, settle and spawn all acquire the active-piece lock
first and the board (Grid) lock second, and move, rotate and spawn release in
reverse order — but `render` acquires in the OPPOSITE order (board first), so there
is no single fixed acquisition order across all call sites, and `settle` releases
the two locks in acquisition order, not reverse order. -/
theorem C8_lock_order :
    locksOf move_lock_trace = [.active_piece_mutex, .board_mutex] ∧
    locksOf rotate_lock_trace = [.active_piece_mutex, .board_mutex] ∧
    locksOf settle_lock_trace = [.active_piece_mutex, .board_mutex] ∧
    locksOf create_piece_lock_trace = [.active_piece_mutex, .board_mutex] ∧
    unlocksOf move_lock_trace = [.board_mutex, .active_piece_mutex] ∧
    unlocksOf rotate_lock_trace = [.board_mutex, .active_piece_mutex] ∧
    unlocksOf create_piece_lock_trace = [.board_mutex, .active_piece_mutex] ∧
    locksOf render_lock_trace = [.board_mutex, .active_piece_mutex] ∧
    locksOf render_lock_trace ≠ [.active_piece_mutex, .board_mutex] ∧
    unlocksOf settle_lock_trace ≠ [.board_mutex, .active_piece_mutex] := by
  decide

/-- C9 (confirmed): the dimension check of `initialize` fails fatally, with the
message "Window dimensions are too small!" and before any game state is created,
iff the rendering backend reports width < 2*(BOARD_WIDTH+2) or
height < BOARD_HEIGHT+2; with adequate dimensions it does not fail. -/
theorem C9_init_dimension_check (w h : Int) :
    init_window_check w h = Except.error "Window dimensions are too small!" ↔
      (w < 2 * ((BOARD_WIDTH : Int) + 2) ∨ h < (BOARD_HEIGHT : Int) + 2) := by
  have hW : (BOARD_WIDTH : Int) = 10 := rfl
  have hH : (BOARD_HEIGHT : Int) = 20 := rfl
  have hMW : MIN_WIDTH = 24 := rfl
  have hMH : MIN_HEIGHT = 22 := rfl
  unfold init_window_check
  rw [hW, hH, hMW, hMH]
  by_cases hc : w < 24 ∨ h < 22
  · rw [if_pos hc]
    constructor
    · intro _; omega
    · intro _; rfl
  · rw [if_neg hc]
    constructor
    · intro hx; cases hx
    · intro hx; exact absurd (by omega : w < 24 ∨ h < 22) hc

theorem shiftColumn_length (line : Int) (col : List Nat) :
    (shiftColumn line col).length = col.length := by
  simp [shiftColumn]

theorem removeRow_WF {b : Board} (hWF : b.WF) (line : Int) : (removeRow line b).WF := by
  obtain ⟨hlen, hcols⟩ := hWF
  refine ⟨by simpa [removeRow] using hlen, ?_⟩
  intro col hm
  unfold removeRow at hm
  obtain ⟨col0, hm0, rfl⟩ := List.mem_map.mp hm
  rw [shiftColumn_length]
  exact hcols _ hm0

theorem clearLinesAux_WF :
    ∀ (n : Nat) (ls : List Int) {b : Board}, b.WF → (clearLinesAux n ls b).WF := by
  intro n
  induction n with
  | zero => intro ls b hWF; exact hWF
  | succ m ih =>
    intro ls b hWF
    cases ls with
    | nil => exact hWF
    | cons l rest =>
      unfold clearLinesAux
      by_cases hl : l = -1
      · rw [if_pos hl]; exact ih _ hWF
      · rw [if_neg hl]; exact ih _ (removeRow_WF hWF l)

theorem clearLines_WF {b : Board} (hWF : b.WF) (ls : List Int) : (clearLines ls b).WF :=
  clearLinesAux_WF _ _ hWF

theorem blocksList_mem {p : piece_t} {blk : block_t} :
    blk ∈ blocksList p ↔ ∃ i : Fin 4, blk = p.blocks i := by
  constructor
  · intro hm
    simp only [blocksList, List.mem_cons, List.not_mem_nil, or_false] at hm
    rcases hm with rfl | rfl | rfl | rfl
    · exact ⟨0, rfl⟩
    · exact ⟨1, rfl⟩
    · exact ⟨2, rfl⟩
    · exact ⟨3, rfl⟩
  · rintro ⟨i, rfl⟩
    fin_cases i <;> simp [blocksList]

/-- C1 (corrected): for every well-formed grid and every in-bounds active piece all
of whose 4 cells are on the board (every pre-move `y ≥ 0` — the amendment: a piece
with a cell above the board settles into a game over without writing all 4 cells,
see the counterexample), if `move_active_piece DOWN` finds that a candidate cell
would cross the floor or land on a settled cell, then the piece settles computed
from its pre-move coordinates: each of its 4 cells is written into the Grid at
exactly its pre-move coordinates with the piece's color, the resulting board is the
written board after line clearing, and the operation returns false ("no longer
active"); otherwise it returns true. -/
theorem C1_move_down_settles (s : GState) (ri : Fin 7) (hWF : s.board.WF)
    (hin : pieceInBounds s.active_piece)
    (hy : ∀ i : Fin 4, 0 ≤ (s.active_piece.blocks i).y) :
    (moveChecks DOWN s.board s.active_piece = some none →
      ∃ wb marks,
        settleLoop s.active_piece.color (blocksList s.active_piece) s.board []
          = some (wb, marks, false) ∧
        (∀ i : Fin 4, board_get? wb (s.active_piece.blocks i).x
          (s.active_piece.blocks i).y = some s.active_piece.color) ∧
        ∃ s2, move_active_piece DOWN ri s = some (s2, false) ∧
          s2.board = clearLines marks wb) ∧
    (moveChecks DOWN s.board s.active_piece ≠ some none →
      ∃ s2, move_active_piece DOWN ri s = some (s2, true)) := by
  constructor
  · intro hmc
    have hl : ∀ blk ∈ blocksList s.active_piece,
        0 ≤ blk.x ∧ blk.x < (BOARD_WIDTH : Int) ∧
        0 ≤ blk.y ∧ blk.y < (BOARD_HEIGHT : Int) := by
      intro blk hm
      obtain ⟨i, rfl⟩ := blocksList_mem.mp hm
      exact ⟨(hin i).1, (hin i).2.1, hy i, (hin i).2.2⟩
    obtain ⟨wb, marks, hrun, hwbWF, hall, _⟩ :=
      settleLoop_ok s.active_piece.color (blocksList s.active_piece) s.board [] hWF hl
    obtain ⟨go, hcreate⟩ := create_isSome ri (clearLines_WF hwbWF marks)
    have hset : settle_active_piece ri s = some
        { board := clearLines marks wb, active_piece := BLOCK_TYPE_NAMES ri,
          GAME_STATE := if go then GAME_OVER else s.GAME_STATE } := by
      unfold settle_active_piece
      rw [hrun]
      dsimp only
      rw [hcreate]
    refine ⟨wb, marks, hrun, ?_, ?_⟩
    · intro i
      exact hall _ (blocksList_mem.mpr ⟨i, rfl⟩)
    · refine ⟨GState.mk (clearLines marks wb) (BLOCK_TYPE_NAMES ri)
        (if go then GAME_OVER else s.GAME_STATE), ?_, rfl⟩
      unfold move_active_piece
      rw [hmc]
      dsimp only
      rw [hset]
      rfl
  · intro hne
    obtain ⟨r, hr⟩ := moveChecks_isSome hWF hin
    cases r with
    | none => exact absurd hr hne
    | some nb =>
      refine ⟨GState.mk s.board (piece_t.mk nb s.active_piece.color) s.GAME_STATE, ?_⟩
      unfold move_active_piece
      rw [hr]

/-- Counterexample to C1 as stated: a vertical I piece with one block above the
board, blocked from below at (4, 3).  The DOWN move does report "no longer active"
(returns false), but the settlement it triggers hits the above-board block after
writing only block 0, so block 2's pre-move cell (4, 1) still holds TB_BLACK in the
resulting grid instead of the piece's color — the piece's 4 cells are NOT all
written at their pre-move coordinates. -/
theorem C1_move_down_settles_counterexample :
    (move_active_piece DOWN 0 c1State).map (fun r =>
      (r.2, board_get? r.1.board (c1State.active_piece.blocks 2).x
        (c1State.active_piece.blocks 2).y)) = some (false, some TB_BLACK) ∧
    TB_BLACK ≠ c1State.active_piece.color ∧
    0 ≤ (c1State.active_piece.blocks 2).y ∧
    (c1State.active_piece.blocks 2).y < (BOARD_HEIGHT : Int) :=
  ⟨by rfl, by decide, by decide, by decide⟩

/-- Witness for C1: an O piece resting on the floor of the empty board; moving DOWN
crosses the floor, the piece settles, all 4 cells are written at their pre-move
coordinates with the piece's color, and the move returns false. -/
theorem C1_move_down_settles_witness :
    w1State.board.WF ∧ pieceInBounds w1State.active_piece ∧
    (∀ i : Fin 4, 0 ≤ (w1State.active_piece.blocks i).y) ∧
    (∃ wb marks,
      settleLoop w1State.active_piece.color (blocksList w1State.active_piece)
        w1State.board [] = some (wb, marks, false) ∧
      (∀ i : Fin 4, board_get? wb (w1State.active_piece.blocks i).x
        (w1State.active_piece.blocks i).y = some w1State.active_piece.color) ∧
      ∃ s2, move_active_piece DOWN 0 w1State = some (s2, false) ∧
        s2.board = clearLines marks wb) :=
  ⟨by decide, by decide, by decide,
   (C1_move_down_settles w1State 0 (by decide) (by decide) (by decide)).1 (by decide)⟩

/-- C7 (corrected): in every reachable state whose game state is not GAME_OVER, no
occupied Grid cell coincides with any of the active piece's 4 cells — the invariant
holds after every spawn, move, rotation, hard drop and settlement that leaves the
game in play.  (The amendment: after a spawn that signals game over the overlap that
caused the signal persists — the spawned piece is left standing on the settled cells;
see the counterexample.) -/
theorem C7_no_overlap_outside_game_over (s : GState) (hreach : ReachableState s)
    (hmode : s.GAME_STATE ≠ GAME_OVER) : noOverlapB s = true := by
  induction hreach with
  | setup ri s hset =>
    rw [setup_new_game_eq ri] at hset
    cases hset
    exact tetrisStart_noOverlap ri
  | move d ri s s2 act hr hm ih => exact move_preserves_inv hm ih hmode
  | rotate s s2 hr hrot ih => exact rotate_preserves_inv hrot ih hmode
  | hardDrop fuel ri s s2 hr hh ih => exact hard_drop_preserves_inv fuel hh ih hmode

/-- Witness for C7: the state right after a fresh game on the I piece is reachable,
in play, and overlap-free. -/
theorem C7_no_overlap_witness : noOverlapB (tetrisStart 0) = true :=
  C7_no_overlap_outside_game_over (tetrisStart 0)
    (ReachableState.setup 0 _ (setup_new_game_eq 0)) (by decide)

/-- Counterexample to C7 as stated: stacking five vertical I pieces in column 4
(rotate then hard-drop, each spawn drawing the I template) fills the column; the
settlement of the fifth piece spawns a sixth I on top of the settled cells, which
signals game over — and in that reachable post-spawn state the active piece's cells
overlap settled Grid cells, so non-overlap does NOT hold after a spawn that signals
game over. -/
theorem C7_no_overlap_counterexample :
    ∃ s, ReachableState s ∧ noOverlapB s = false := by
  have hrun : (runSteps c7Steps (tetrisStart 0)).map noOverlapB = some false := by rfl
  cases hc : runSteps c7Steps (tetrisStart 0) with
  | none => rw [hc] at hrun; cases hrun
  | some sF =>
    rw [hc] at hrun
    refine ⟨sF, runSteps_reachable c7Steps (tetrisStart 0) sF
      (ReachableState.setup 0 _ (setup_new_game_eq 0)) hc, ?_⟩
    exact Option.some_inj.mp hrun

/-! ## Rotation geometry lemmas -/

theorem piece_eq_of (p q : piece_t) (hb : p.blocks = q.blocks) (hc : p.color = q.color) :
    p = q := by
  cases p; cases q; cases hb; cases hc; rfl

theorem rotApply_color (p : piece_t) : (rotApply p).color = p.color := by
  unfold rotApply
  split <;> rfl

theorem rotApply_blocks {p : piece_t} (hR : p.color ≠ TB_RED) :
    (rotApply p).blocks 0 = p.blocks 0 ∧
    (rotApply p).blocks 1 = rotCandidates p 0 ∧
    (rotApply p).blocks 2 = rotCandidates p 1 ∧
    (rotApply p).blocks 3 = rotCandidates p 2 := by
  unfold rotApply
  rw [if_neg hR]
  refine ⟨?_, ?_, ?_, ?_⟩ <;>
    simp [Matrix.cons_val_zero, Matrix.cons_val_one, Matrix.head_cons,
      Matrix.cons_val_two, Matrix.tail_cons, Matrix.cons_val_three]

theorem rotCandidates_cyan_horiz {p : piece_t} (hc : p.color = TB_CYAN)
    (hh : (p.blocks 0).y = (p.blocks 1).y) :
    rotCandidates p 0 = ⟨(p.blocks 0).x, (p.blocks 0).y - 1⟩ ∧
    rotCandidates p 1 = ⟨(p.blocks 0).x, (p.blocks 0).y + 1⟩ ∧
    rotCandidates p 2 = ⟨(p.blocks 0).x, (p.blocks 0).y + 2⟩ := by
  unfold rotCandidates
  dsimp only
  rw [if_pos hc, if_pos hh]
  refine ⟨?_, ?_, ?_⟩ <;>
    simp [Matrix.cons_val_zero, Matrix.cons_val_one, Matrix.head_cons,
      Matrix.cons_val_two, Matrix.tail_cons, Matrix.cons_val_three]

theorem rotCandidates_cyan_vert {p : piece_t} (hc : p.color = TB_CYAN)
    (hv : ¬((p.blocks 0).y = (p.blocks 1).y)) :
    rotCandidates p 0 = ⟨(p.blocks 0).x - 1, (p.blocks 0).y⟩ ∧
    rotCandidates p 1 = ⟨(p.blocks 0).x + 1, (p.blocks 0).y⟩ ∧
    rotCandidates p 2 = ⟨(p.blocks 0).x + 2, (p.blocks 0).y⟩ := by
  unfold rotCandidates
  dsimp only
  rw [if_pos hc, if_neg hv]
  refine ⟨?_, ?_, ?_⟩ <;>
    simp [Matrix.cons_val_zero, Matrix.cons_val_one, Matrix.head_cons,
      Matrix.cons_val_two, Matrix.tail_cons, Matrix.cons_val_three]

theorem rotCandidates_default {p : piece_t} (hC : p.color ≠ TB_CYAN) (i : Fin 3) :
    rotCandidates p i = rotStep (p.blocks 0) (p.blocks i.succ) := by
  unfold rotCandidates rotStep
  dsimp only
  rw [if_neg hC]

theorem rotStep_four (c v : block_t) :
    rotStep c (rotStep c (rotStep c (rotStep c v))) = v := by
  cases c with
  | mk cx cy =>
    cases v with
    | mk vx vy =>
      simp only [rotStep, block_t.mk.injEq]
      constructor <;> ring

theorem rotApply_rotApply_I {p : piece_t} (h : isHorizI p ∨ isVertI p) :
    rotApply (rotApply p) = p := by
  rcases h with ⟨hc, h1, h2, h3⟩ | ⟨hc, h1, h2, h3⟩
  · -- horizontal: one rotation makes it vertical, the second restores it
    have hR : p.color ≠ TB_RED := by rw [hc]; decide
    obtain ⟨hb0, hb1, hb2, hb3⟩ := rotApply_blocks hR
    have hcnd := rotCandidates_cyan_horiz hc (by rw [h1])
    have hcol : (rotApply p).color = p.color := rotApply_color p
    have hR2 : (rotApply p).color ≠ TB_RED := by rw [hcol, hc]; decide
    obtain ⟨hb0', hb1', hb2', hb3'⟩ := rotApply_blocks hR2
    have hcnd2 := rotCandidates_cyan_vert (p := rotApply p) (by rw [hcol, hc])
      (by rw [hb0, hb1, hcnd.1]; dsimp only; omega)
    refine piece_eq_of _ _ ?_ ((rotApply_color _).trans hcol)
    funext i
    refine Fin.cases ?_ (fun j => ?_) i
    · exact hb0'.trans hb0
    · fin_cases j
      · exact (hb1'.trans hcnd2.1).trans (by rw [hb0]; exact h1.symm)
      · exact (hb2'.trans hcnd2.2.1).trans (by rw [hb0]; exact h2.symm)
      · exact (hb3'.trans hcnd2.2.2).trans (by rw [hb0]; exact h3.symm)
  · -- vertical: one rotation makes it horizontal, the second restores it
    have hR : p.color ≠ TB_RED := by rw [hc]; decide
    obtain ⟨hb0, hb1, hb2, hb3⟩ := rotApply_blocks hR
    have hcnd := rotCandidates_cyan_vert hc (by rw [h1]; dsimp only; omega)
    have hcol : (rotApply p).color = p.color := rotApply_color p
    have hR2 : (rotApply p).color ≠ TB_RED := by rw [hcol, hc]; decide
    obtain ⟨hb0', hb1', hb2', hb3'⟩ := rotApply_blocks hR2
    have hcnd2 := rotCandidates_cyan_horiz (p := rotApply p) (by rw [hcol, hc])
      (by rw [hb0, hb1, hcnd.1])
    refine piece_eq_of _ _ ?_ ((rotApply_color _).trans hcol)
    funext i
    refine Fin.cases ?_ (fun j => ?_) i
    · exact hb0'.trans hb0
    · fin_cases j
      · exact (hb1'.trans hcnd2.1).trans (by rw [hb0]; exact h1.symm)
      · exact (hb2'.trans hcnd2.2.1).trans (by rw [hb0]; exact h2.symm)
      · exact (hb3'.trans hcnd2.2.2).trans (by rw [hb0]; exact h3.symm)

theorem rotApply_four_of_other {p : piece_t}
    (hR : p.color ≠ TB_RED) (hC : p.color ≠ TB_CYAN) :
    rotApply (rotApply (rotApply (rotApply p))) = p := by
  have hstep : ∀ q : piece_t, q.color = p.color → q.blocks 0 = p.blocks 0 →
      (rotApply q).color = p.color ∧ (rotApply q).blocks 0 = p.blocks 0 ∧
      ∀ k : Fin 3, (rotApply q).blocks k.succ = rotStep (p.blocks 0) (q.blocks k.succ) := by
    intro q hqc hq0
    have hqR : q.color ≠ TB_RED := by rw [hqc]; exact hR
    have hqC : q.color ≠ TB_CYAN := by rw [hqc]; exact hC
    obtain ⟨hb0, hb1, hb2, hb3⟩ := rotApply_blocks hqR
    refine ⟨(rotApply_color q).trans hqc, hb0.trans hq0, ?_⟩
    intro k
    fin_cases k
    · exact (hb1.trans (rotCandidates_default hqC 0)).trans (by rw [hq0]; rfl)
    · exact (hb2.trans (rotCandidates_default hqC 1)).trans (by rw [hq0]; rfl)
    · exact (hb3.trans (rotCandidates_default hqC 2)).trans (by rw [hq0]; rfl)
  obtain ⟨hc1, h01, hk1⟩ := hstep p rfl rfl
  obtain ⟨hc2, h02, hk2⟩ := hstep _ hc1 h01
  obtain ⟨hc3, h03, hk3⟩ := hstep _ hc2 h02
  obtain ⟨hc4, h04, hk4⟩ := hstep _ hc3 h03
  refine piece_eq_of _ _ ?_ hc4
  funext i
  refine Fin.cases ?_ (fun k => ?_) i
  · exact h04
  · rw [hk4 k, hk3 k, hk2 k, hk1 k]
    exact rotStep_four _ _

/-- C6 (confirmed): rotation periodicity — rotating the O piece is always a no-op
(state unchanged, whatever the Grid holds); rotating a canonically shaped I piece
twice in a row, both rotations unobstructed and accepted, returns it to its original
orientation; and for any piece that is neither the O nor the I piece (the colors of
L/J/S/Z/T), four rotations in a row, each unobstructed and accepted, return all 4
blocks to their original coordinates. -/
theorem C6_rotation_periodicity :
    (∀ s : GState, s.active_piece.color = TB_RED → rotate_active_piece s = some s) ∧
    (∀ s : GState, (isHorizI s.active_piece ∨ isVertI s.active_piece) →
      rotAccepted s.board s.active_piece →
      rotAccepted s.board (rotApply s.active_piece) →
      rotate_active_piece s = some { s with active_piece := rotApply s.active_piece } ∧
      rotate_active_piece { s with active_piece := rotApply s.active_piece } =
        some { s with active_piece := rotApply (rotApply s.active_piece) } ∧
      rotApply (rotApply s.active_piece) = s.active_piece) ∧
    (∀ s : GState, s.active_piece.color ≠ TB_RED → s.active_piece.color ≠ TB_CYAN →
      rotAccepted s.board s.active_piece →
      rotAccepted s.board (rotApply s.active_piece) →
      rotAccepted s.board (rotApply (rotApply s.active_piece)) →
      rotAccepted s.board (rotApply (rotApply (rotApply s.active_piece))) →
      rotate_active_piece s = some { s with active_piece := rotApply s.active_piece } ∧
      rotate_active_piece { s with active_piece := rotApply s.active_piece } =
        some { s with active_piece := rotApply (rotApply s.active_piece) } ∧
      rotate_active_piece { s with active_piece := rotApply (rotApply s.active_piece) } =
        some { s with active_piece := rotApply (rotApply (rotApply s.active_piece)) } ∧
      rotate_active_piece
          { s with active_piece := rotApply (rotApply (rotApply s.active_piece)) } =
        some { s with
          active_piece := rotApply (rotApply (rotApply (rotApply s.active_piece))) } ∧
      rotApply (rotApply (rotApply (rotApply s.active_piece))) = s.active_piece) := by
  refine ⟨?_, ?_, ?_⟩
  · intro s hcol
    unfold rotate_active_piece
    dsimp only
    rw [if_pos hcol]
  · intro s hI hacc1 hacc2
    have hCyan : s.active_piece.color = TB_CYAN := by
      rcases hI with ⟨hc, _⟩ | ⟨hc, _⟩ <;> exact hc
    have hR : s.active_piece.color ≠ TB_RED := by rw [hCyan]; decide
    have hR2 : (rotApply s.active_piece).color ≠ TB_RED := by
      rw [rotApply_color, hCyan]; decide
    exact ⟨rotate_apply_of_accepted hR hacc1,
      rotate_apply_of_accepted hR2 hacc2,
      rotApply_rotApply_I hI⟩
  · intro s hR hC hacc1 hacc2 hacc3 hacc4
    have hR2 : (rotApply s.active_piece).color ≠ TB_RED := by rw [rotApply_color]; exact hR
    have hR3 : (rotApply (rotApply s.active_piece)).color ≠ TB_RED := by
      rw [rotApply_color, rotApply_color]; exact hR
    have hR4 : (rotApply (rotApply (rotApply s.active_piece))).color ≠ TB_RED := by
      rw [rotApply_color, rotApply_color, rotApply_color]; exact hR
    exact ⟨rotate_apply_of_accepted hR hacc1,
      rotate_apply_of_accepted hR2 hacc2,
      rotate_apply_of_accepted hR3 hacc3,
      rotate_apply_of_accepted hR4 hacc4,
      rotApply_four_of_other hR hC⟩

/-- Witness for C6: on the empty board, the O piece's rotation is a no-op; two
rotations of the freshly spawned I piece restore it; four rotations of the freshly
spawned T piece restore it (all rotations accepted on the empty board). -/
theorem C6_rotation_periodicity_witness :
    rotate_active_piece (tetrisStart 3) = some (tetrisStart 3) ∧
    rotApply (rotApply (tetrisStart 0).active_piece) = (tetrisStart 0).active_piece ∧
    rotApply (rotApply (rotApply (rotApply (tetrisStart 6).active_piece))) =
      (tetrisStart 6).active_piece :=
  ⟨C6_rotation_periodicity.1 (tetrisStart 3) (by decide),
   (C6_rotation_periodicity.2.1 (tetrisStart 0) (Or.inl (by decide))
     (by decide) (by decide)).2.2,
   (C6_rotation_periodicity.2.2 (tetrisStart 6) (by decide) (by decide)
     (by decide) (by decide) (by decide) (by decide)).2.2.2.2⟩
